import Mathlib

/-!
Verification of the SVG resource core (`core/src/svg.rs`): the identity model
(`Id`, `Data`, `Handle`), the `Svg` draw-request builder, and the equality and
hashing contracts that downstream caches rely on.

The `Id::unique` counter is process-wide mutable state in the source; here it
is passed explicitly, so every constructor that may allocate a fresh identity
takes the current counter and returns the updated one.
-/

namespace Iced

/-- Modelled from the spec: a Rust `f32` value, abstracted to the structure
relevant to IEEE comparison: either NaN (unequal to everything, itself
included) or an ordinary numeric value. -/
inductive F32 where
  | nan : F32
  | val : Rat → F32
  deriving DecidableEq

/-- IEEE `==` on `f32` as Rust's derived `PartialEq` uses it: NaN compares
unequal to everything, including itself. -/
def F32.ieeeEq : F32 → F32 → Bool
  | F32.val a, F32.val b => a == b
  | _, _ => false

/-- Modelled from the spec: `Radians` is a newtype over `f32`; its derived
equality compares the inner float. -/
structure Radians where
  radians : F32
  deriving DecidableEq

/-- Derived `PartialEq` for `Radians`: IEEE comparison of the inner float. -/
def Radians.ieeeEq (a b : Radians) : Bool := F32.ieeeEq a.radians b.radians

/-- Modelled from the spec: `Color` (an external geometry/color primitive,
declared outside this file) is four `f32` channels; its derived equality is
componentwise IEEE comparison. -/
structure Color where
  r : F32
  g : F32
  b : F32
  a : F32
  deriving DecidableEq

/-- Derived `PartialEq` for `Color`: componentwise IEEE comparison. -/
def Color.ieeeEq (x y : Color) : Bool :=
  F32.ieeeEq x.r y.r && F32.ieeeEq x.g y.g && F32.ieeeEq x.b y.b
    && F32.ieeeEq x.a y.a

/-- Derived `PartialEq` for `Option<Color>`. -/
def optColorIeeeEq : Option Color → Option Color → Bool
  | none, none => true
  | some a, some b => Color.ieeeEq a b
  | _, _ => false

/-- An owned filesystem path (`PathBuf`), modelled as its sequence of
characters. -/
abbrev PathBuf := List Char

/-- Modelled from the spec: `image::Id` (declared in the image module, outside
this file). An `Id` is either derived deterministically from a normalized path
(the collision-resistant hash is idealized as the path value itself) or a
fresh token drawn from a process-wide monotonically-incrementing counter, so
the two kinds never collide and two fresh tokens never coincide. -/
inductive Id where
  | pathDerived : PathBuf → Id
  | unique : Nat → Id
  deriving DecidableEq

/-- Modelled from the spec: `Id::path` — deterministic and side-effect-free
derivation of an `Id` from a path. -/
def Id.path (p : PathBuf) : Id := Id.pathDerived p

/-- Modelled from the spec: `Id::unique` — returns a fresh token and advances
the process-wide counter (threaded explicitly as the `Nat` argument). -/
def Id.uniqueOp (ctr : Nat) : Id × Nat := (Id.unique ctr, ctr + 1)

/-- The payload variants backing a `Handle` (`enum Data` in `svg.rs`): an
owned file path, an in-memory byte buffer (`Cow<'static, [u8]>`, modelled as a
byte list), or a parsed `usvg::Tree` (opaque to this core, modelled as a
token). -/
inductive Data where
  | Path : PathBuf → Data
  | Bytes : List Nat → Data
  | Tree : Nat → Data
  deriving DecidableEq

/-- The `Data` variants that receive `Id::unique` in `Handle::from_data`
(`Bytes` and `Tree`); `Path` receives a path-derived `Id` instead. -/
def Data.usesUniqueId : Data → Bool
  | Data.Bytes _ => true
  | Data.Tree _ => true
  | Data.Path _ => false

/-- `struct Handle` in `svg.rs`: an `Id` plus shared immutable payload. The
`Arc<Data>` is modelled as direct ownership of the immutable `Data` value,
since no operation of this core mutates payloads. The `id` field doubles as
the `Handle::id()` accessor. -/
structure Handle where
  id : Id
  data : Data
  deriving DecidableEq

/-- `Handle::from_data`: path payloads get a path-derived `Id`; byte and tree
payloads get a fresh unique `Id`, advancing the counter. -/
def Handle.from_data (d : Data) (ctr : Nat) : Handle × Nat :=
  match d with
  | Data.Path p => (Handle.mk (Id.path p) d, ctr)
  | Data.Bytes _ => (Handle.mk (Id.uniqueOp ctr).1 d, (Id.uniqueOp ctr).2)
  | Data.Tree _ => (Handle.mk (Id.uniqueOp ctr).1 d, (Id.uniqueOp ctr).2)

/-- `Handle::from_path`. -/
def Handle.from_path (p : PathBuf) (ctr : Nat) : Handle × Nat :=
  Handle.from_data (Data.Path p) ctr

/-- `Handle::from_memory`. -/
def Handle.from_memory (b : List Nat) (ctr : Nat) : Handle × Nat :=
  Handle.from_data (Data.Bytes b) ctr

/-- `Handle::from_tree`. -/
def Handle.from_tree (t : Nat) (ctr : Nat) : Handle × Nat :=
  Handle.from_data (Data.Tree t) ctr

/-- `#[derive(Clone)]` on `Handle`: the `Id` is copied and the
reference-counted reference to the same `Data` is duplicated; observably the
clone carries the same `Id` and the same payload value. -/
def Handle.clone (h : Handle) : Handle := Handle.mk h.id h.data

/-- `impl PartialEq for Handle`: delegates entirely to `Id` equality; the
payload is never consulted. -/
def Handle.idEq (h1 h2 : Handle) : Bool := h1.id == h2.id

/-- `impl Hash for Handle`: feeds only the `Id` to the hasher, here an
arbitrary function out of `Id`. -/
def Handle.hashWith (f : Id → Nat) (h : Handle) : Nat := f h.id

/-- `impl<T: Into<PathBuf>> From<T> for Handle`: the generic conversion first
applies the caller's `Into<PathBuf>` conversion (an arbitrary function `f`)
and then delegates to `Handle::from_path`. -/
def Handle.fromPathLike {α : Type} (f : α → PathBuf) (x : α) (ctr : Nat) :
    Handle × Nat :=
  Handle.from_path (f x) ctr

/-- `struct Svg` in `svg.rs` (with `H = Handle`): one draw request. -/
structure Svg where
  handle : Handle
  color : Option Color
  rotation : Radians
  opacity : F32
  deriving DecidableEq

/-- `Svg::new`: default color = none, rotation = 0 radians, opacity = 1. -/
def Svg.new (h : Handle) : Svg :=
  Svg.mk h none (Radians.mk (F32.val 0)) (F32.val 1)

/-- `Svg::color` (named `withColor` here because `color` is the field
projection): sets the color override to `Some c`. -/
def Svg.withColor (s : Svg) (c : Color) : Svg :=
  Svg.mk s.handle (some c) s.rotation s.opacity

/-- `Svg::rotation`: sets the rotation. -/
def Svg.withRotation (s : Svg) (r : Radians) : Svg :=
  Svg.mk s.handle s.color r s.opacity

/-- `Svg::opacity`: stores the given opacity unchanged, with no validation. -/
def Svg.withOpacity (s : Svg) (o : F32) : Svg :=
  Svg.mk s.handle s.color s.rotation o

/-- `impl From<&Handle> for Svg`: `Svg::new(handle.clone())`. -/
def Svg.fromHandleRef (h : Handle) : Svg := Svg.new h.clone

/-- `#[derive(PartialEq)]` on `Svg`: structural comparison using each field's
own `PartialEq` — `Handle`'s `Id`-based equality and IEEE comparison for the
float-bearing fields. -/
def Svg.ieeeEq (s1 s2 : Svg) : Bool :=
  Handle.idEq s1.handle s2.handle && optColorIeeeEq s1.color s2.color
    && Radians.ieeeEq s1.rotation s2.rotation
    && F32.ieeeEq s1.opacity s2.opacity

/-- A construction request: which `Handle` constructor a caller invokes. -/
inductive Source where
  | path : PathBuf → Source
  | bytes : List Nat → Source
  | tree : Nat → Source

/-- The `Data` payload each construction request builds. -/
def Source.toData : Source → Data
  | Source.path p => Data.Path p
  | Source.bytes b => Data.Bytes b
  | Source.tree t => Data.Tree t

/-- Runs a sequence of `Handle` constructions, threading the unique-id
counter; returns the handles in construction order and the final counter. -/
def buildAll : List Source → Nat → List Handle × Nat
  | [], ctr => ([], ctr)
  | s :: rest, ctr =>
      ((Handle.from_data s.toData ctr).1
          :: (buildAll rest (Handle.from_data s.toData ctr).2).1,
        (buildAll rest (Handle.from_data s.toData ctr).2).2)

theorem from_data_counter_le (d : Data) (c : Nat) :
    c ≤ (Handle.from_data d c).2 := by
  cases d <;> simp [Handle.from_data, Id.uniqueOp]

theorem buildAll_counter_le (l : List Source) : ∀ c : Nat,
    c ≤ (buildAll l c).2 := by
  induction l with
  | nil => intro c; simp [buildAll]
  | cons s rest ih =>
      intro c
      simp only [buildAll]
      exact le_trans (from_data_counter_le s.toData c)
        (ih (Handle.from_data s.toData c).2)

theorem from_data_unique_id (d : Data) (c n : Nat)
    (h : ((Handle.from_data d c).1).id = Id.unique n) :
    n = c ∧ (Handle.from_data d c).2 = c + 1 := by
  cases d <;> simp [Handle.from_data, Id.uniqueOp, Id.path] at h ⊢ <;> omega

theorem from_data_dynamic_unique (d : Data) (c : Nat)
    (hd : (((Handle.from_data d c).1).data).usesUniqueId = true) :
    ∃ n, ((Handle.from_data d c).1).id = Id.unique n := by
  cases d <;>
    simp [Handle.from_data, Id.uniqueOp, Id.path, Data.usesUniqueId] at hd ⊢

theorem buildAll_mem_unique_bounds (l : List Source) :
    ∀ (c : Nat) (h : Handle), h ∈ (buildAll l c).1 →
      ∀ n, h.id = Id.unique n → c ≤ n ∧ n < (buildAll l c).2 := by
  induction l with
  | nil => intro c h hmem; simp [buildAll] at hmem
  | cons s rest ih =>
      intro c h hmem n hid
      simp only [buildAll, List.mem_cons] at hmem
      rcases hmem with rfl | hmem
      · obtain ⟨hb1, hb2⟩ := from_data_unique_id s.toData c n hid
        have hc := buildAll_counter_le rest (Handle.from_data s.toData c).2
        simp only [buildAll]
        omega
      · have hc1 := from_data_counter_le s.toData c
        have ihr := ih (Handle.from_data s.toData c).2 h hmem n hid
        simp only [buildAll]
        omega

theorem buildAll_mem_dynamic_unique (l : List Source) :
    ∀ (c : Nat) (h : Handle), h ∈ (buildAll l c).1 →
      (h.data).usesUniqueId = true → ∃ n, h.id = Id.unique n := by
  induction l with
  | nil => intro c h hmem; simp [buildAll] at hmem
  | cons s rest ih =>
      intro c h hmem hd
      simp only [buildAll, List.mem_cons] at hmem
      rcases hmem with rfl | hmem
      · exact from_data_dynamic_unique s.toData c hd
      · exact ih (Handle.from_data s.toData c).2 h hmem hd

/-- Claim C1: `Handle::from_path` derives the `Id` deterministically from the
path with no side effects (the unique-id counter is untouched), so two
independent constructions from equal paths yield equal `Id`s. -/
theorem from_path_deterministic (p : PathBuf) (c c2 : Nat) :
    ((Handle.from_path p c).1).id = ((Handle.from_path p c2).1).id
      ∧ (Handle.from_path p c).2 = c := by
  exact ⟨rfl, rfl⟩

/-- Claim C2: two successive `Handle::from_memory` calls on byte-identical
buffers yield distinct `Id`s, and likewise `from_tree` on the identical tree:
each call consumes a fresh counter token. -/
theorem from_memory_fresh_ids (b : List Nat) (t c0 : Nat) :
    ((Handle.from_memory b c0).1).id
        ≠ ((Handle.from_memory b (Handle.from_memory b c0).2).1).id
      ∧ ((Handle.from_tree t c0).1).id
        ≠ ((Handle.from_tree t (Handle.from_tree t c0).2).1).id := by
  constructor <;>
    · intro hcontra
      simp [Handle.from_memory, Handle.from_tree, Handle.from_data,
        Id.uniqueOp] at hcontra

/-- Claim C3: `Handle` equality holds exactly when the `Id`s are equal; equal
`Id`s give equal hashes under every hasher; and neither operation consults the
payload `Data` (replacing both payloads leaves equality unchanged). -/
theorem handle_eq_iff_id_eq (h1 h2 : Handle) :
    (Handle.idEq h1 h2 = true ↔ h1.id = h2.id)
      ∧ (h1.id = h2.id →
          ∀ f : Id → Nat, Handle.hashWith f h1 = Handle.hashWith f h2)
      ∧ (∀ d1 d2 : Data,
          Handle.idEq (Handle.mk h1.id d1) (Handle.mk h2.id d2)
            = Handle.idEq h1 h2) := by
  refine ⟨?_, ?_, ?_⟩
  · simp [Handle.idEq]
  · intro hid f
    simp [Handle.hashWith, hid]
  · intro d1 d2
    simp [Handle.idEq]

/-- Witness for C3 at concrete handles with equal `Id`s but different `Data`
variants. -/
theorem handle_eq_iff_id_eq_witness :
    Handle.idEq (Handle.mk (Id.unique 0) (Data.Bytes [7]))
        (Handle.mk (Id.unique 0) (Data.Tree 5)) = true
      ∧ Handle.hashWith (fun i => if i = Id.unique 0 then 3 else 4)
          (Handle.mk (Id.unique 0) (Data.Bytes [7]))
        = Handle.hashWith (fun i => if i = Id.unique 0 then 3 else 4)
          (Handle.mk (Id.unique 0) (Data.Tree 5)) :=
  ⟨(handle_eq_iff_id_eq (Handle.mk (Id.unique 0) (Data.Bytes [7]))
      (Handle.mk (Id.unique 0) (Data.Tree 5))).1.mpr rfl,
    (handle_eq_iff_id_eq (Handle.mk (Id.unique 0) (Data.Bytes [7]))
      (Handle.mk (Id.unique 0) (Data.Tree 5))).2.1 rfl
      (fun i => if i = Id.unique 0 then 3 else 4)⟩

/-- Claim C4: across any sequence of handle constructions, the `Id` of every
handle whose payload variant receives `Id::unique` (`Bytes` or `Tree`) differs
from the `Id` of every handle constructed before it. -/
theorem unique_ids_never_collide (srcs : List Source) (c0 : Nat) :
    List.Pairwise (fun g h => (h.data).usesUniqueId = true → g.id ≠ h.id)
      (buildAll srcs c0).1 := by
  induction srcs generalizing c0 with
  | nil => exact List.Pairwise.nil
  | cons s rest ih =>
      simp only [buildAll]
      refine List.Pairwise.cons ?_ (ih (Handle.from_data s.toData c0).2)
      intro h2 hmem hd
      obtain ⟨m, hm⟩ :=
        buildAll_mem_dynamic_unique rest (Handle.from_data s.toData c0).2
          h2 hmem hd
      have hbound :=
        buildAll_mem_unique_bounds rest (Handle.from_data s.toData c0).2
          h2 hmem m hm
      rw [hm]
      cases hg : ((Handle.from_data s.toData c0).1).id with
      | pathDerived p => simp
      | unique k =>
          obtain ⟨hk1, hk2⟩ := from_data_unique_id s.toData c0 k hg
          simp only [ne_eq, Id.unique.injEq]
          omega

/-- Witness for C4 on a concrete construction sequence mixing a path, bytes,
and a tree. -/
theorem unique_ids_never_collide_witness :
    List.Pairwise (fun g h => (h.data).usesUniqueId = true → g.id ≠ h.id)
      (buildAll [Source.bytes [1], Source.path ['a'], Source.bytes [1],
        Source.tree 0] 0).1 :=
  unique_ids_never_collide [Source.bytes [1], Source.path ['a'],
    Source.bytes [1], Source.tree 0] 0

/-- Claim C5: cloning a `Handle` preserves its `Id` and its underlying `Data`
exactly, and the `Id` is identical across repeated clones. -/
theorem clone_preserves_id_and_data (h : Handle) :
    (h.clone).id = h.id ∧ (h.clone).data = h.data
      ∧ (h.clone.clone).id = h.id := by
  exact ⟨rfl, rfl, rfl⟩

/-- Claim C6: `Svg::new` produces a request with color = none, rotation = 0
radians and opacity = 1, and the conversion from a `&Handle` produces exactly
this default request with the same `Id`. -/
theorem svg_new_defaults (h : Handle) :
    Svg.new h = Svg.mk h none (Radians.mk (F32.val 0)) (F32.val 1)
      ∧ Svg.fromHandleRef h = Svg.new h
      ∧ (Svg.fromHandleRef h).handle.id = h.id := by
  exact ⟨rfl, rfl, rfl⟩

/-- Claim C7: each builder call changes only its targeted field and leaves the
handle and the other fields unchanged; the full chain carries the handle,
`Some` of the color, the rotation and the opacity. -/
theorem svg_builders_frame (h : Handle) (s : Svg) (c : Color) (r : Radians)
    (o : F32) :
    s.withColor c = Svg.mk s.handle (some c) s.rotation s.opacity
      ∧ s.withRotation r = Svg.mk s.handle s.color r s.opacity
      ∧ s.withOpacity o = Svg.mk s.handle s.color s.rotation o
      ∧ (((Svg.new h).withColor c).withRotation r).withOpacity o
          = Svg.mk h (some c) r o := by
  exact ⟨rfl, rfl, rfl, rfl⟩

/-- Claim C8: the generic `From<T: Into<PathBuf>>` conversion is exactly
`Handle::from_path` after the path conversion: same result, a `Data::Path`
payload, and the path-derived `Id`. -/
theorem from_pathlike_is_from_path {α : Type} (f : α → PathBuf) (x : α)
    (c : Nat) :
    Handle.fromPathLike f x c = Handle.from_path (f x) c
      ∧ ((Handle.fromPathLike f x c).1).data = Data.Path (f x)
      ∧ ((Handle.fromPathLike f x c).1).id = Id.path (f x) := by
  exact ⟨rfl, rfl, rfl⟩

/-- Claim C9: no operation of this core fails or validates its input: every
constructor stores its payload verbatim without inspecting it, and
`Svg::opacity` stores every `f32` value unchanged, including values outside
`[0, 1]` and NaN. -/
theorem no_validation_total_construction :
    (∀ (p : PathBuf) (c : Nat), ((Handle.from_path p c).1).data = Data.Path p)
      ∧ (∀ (b : List Nat) (c : Nat),
          ((Handle.from_memory b c).1).data = Data.Bytes b)
      ∧ (∀ (t c : Nat), ((Handle.from_tree t c).1).data = Data.Tree t)
      ∧ (∀ (s : Svg) (o : F32), (s.withOpacity o).opacity = o)
      ∧ (∀ s : Svg, (s.withOpacity (F32.val 2)).opacity = F32.val 2)
      ∧ (∀ s : Svg, (s.withOpacity F32.nan).opacity = F32.nan) := by
  refine ⟨fun p c => rfl, fun b c => rfl, fun t c => rfl, fun s o => rfl,
    fun s => rfl, fun s => rfl⟩

/-- Claim C10: `Svg`'s derived equality compares the handle by `Id` and the
remaining fields by IEEE comparison; a request with NaN opacity is not equal
to itself, so `Svg` equality is not reflexive (no `Eq`), while `Handle`
equality is reflexive (full `Eq`, fit for hash-map keys). -/
theorem svg_derived_eq_structure :
    (∀ s1 s2 : Svg, Svg.ieeeEq s1 s2 = true ↔
        (s1.handle.id = s2.handle.id
          ∧ optColorIeeeEq s1.color s2.color = true
          ∧ Radians.ieeeEq s1.rotation s2.rotation = true
          ∧ F32.ieeeEq s1.opacity s2.opacity = true))
      ∧ (∃ s : Svg, Svg.ieeeEq s s = false)
      ∧ (∀ h : Handle, Handle.idEq h h = true) := by
  refine ⟨?_, ?_, ?_⟩
  · intro s1 s2
    simp [Svg.ieeeEq, Handle.idEq, Bool.and_assoc, and_assoc]
  · exact ⟨Svg.mk (Handle.mk (Id.unique 0) (Data.Bytes []))
      none (Radians.mk (F32.val 0)) F32.nan, by decide⟩
  · intro h
    simp [Handle.idEq]

end Iced
